import Mathlib

/-!
Shallow embedding of the real-time metrics dashboard pipeline of
`backend/app.js` (Recruiter-Website): the `GET /api/dashboard-stats`
endpoint and the Socket.IO `requestStats` handler.

Modelling conventions:
* Timestamps are milliseconds since the Unix epoch, as `Nat`.
* A JavaScript `Date` value is `Option Nat`; `none` is an Invalid Date
  (the result of `new Date(s)` on an unparseable string).  `setHours`
  on an Invalid Date stays invalid.  The record store is a Mongoose
  model: casting a query filter whose `createdAt` bounds are an Invalid
  Date raises a `CastError`, so whenever a non-empty date fails to parse
  and a query is actually issued, the endpoint's catch answers with the
  500 error body (a null model issues no query and still answers zeros).
* MongoDB collections are Lean lists.  `$group` produces one document
  per distinct key with its count but emits them in unspecified order,
  and `$sort` does not specify the relative order of equal sort keys;
  `computeAggregates` fixes one admissible outcome (first-encountered
  group order, stable sort), and `clientCallsAdmissible` captures the
  full set of outcomes the store may return, so that order-sensitive
  properties can be settled against the guarantee rather than the
  model's arbitrary choice.
* The loopback `fetch` of the socket handler is modelled by calling
  the endpoint function directly, with an explicit `Transport` value
  standing for the success or rejection of the `fetch`/`res.json()`
  promises.
-/

namespace Dashboard

/-- A candidate record as read by the pipeline (`createdAt`, `createdBy`,
`client`, `hrStatus`). -/
structure Record where
  createdAt : Nat
  createdBy : String
  client : String
  hrStatus : String
deriving Repr, DecidableEq

/-- A user document as joined by the `$lookup` stage (`_id`, display name). -/
structure User where
  id : String
  username : String
deriving Repr, DecidableEq

/-- Milliseconds in one calendar day. -/
def msPerDay : Nat := 86400000

/-- Days since the Unix epoch of a proleptic Gregorian civil date,
for years `1970 ≤ y` (the range the endpoint's date parameter uses). -/
def daysFromCivil (y m d : Nat) : Nat :=
  let y2 := if m ≤ 2 then y - 1 else y
  let era := y2 / 400
  let yoe := y2 - era * 400
  let mp := (m + 9) % 12
  let doy := (153 * mp + 2) / 5 + d - 1
  let doe := yoe * 365 + yoe / 4 - yoe / 100 + doy
  era * 146097 + doe - 719468

/-- Split a character list on `-` (the separator structure of an ISO-8601
calendar date). -/
def splitDash : List Char → List (List Char)
  | [] => [[]]
  | c :: rest =>
    let r := splitDash rest
    if c = '-' then [] :: r
    else
      match r with
      | [] => [[c]]
      | g :: gs => (c :: g) :: gs

/-- Is every character a decimal digit? -/
def allDigits (cs : List Char) : Bool :=
  cs.all (fun c => c.isDigit)

/-- Decimal value of a digit string. -/
def digitsVal (cs : List Char) : Nat :=
  cs.foldl (fun n c => n * 10 + (c.toNat - 48)) 0

/-- Gregorian leap-year test. -/
def isLeap (y : Nat) : Bool :=
  (decide (y % 4 = 0) && !decide (y % 100 = 0)) || decide (y % 400 = 0)

/-- Length of month `m` of year `y`; JavaScript's ISO date parser rejects
a day component beyond this. -/
def daysInMonth (y m : Nat) : Nat :=
  if m = 2 then (if isLeap y then 29 else 28)
  else if m = 4 || m = 6 || m = 9 || m = 11 then 30
  else 31

/-- Model of JavaScript `new Date(s)` on a query-string date: an ISO-8601
calendar date `YYYY-MM-DD` whose components form a real calendar date
(month 1–12, day within that month's length, leap years respected)
parses to the UTC midnight timestamp of that day; any other string —
including a calendar-invalid one such as day 31 of a 30-day month —
yields an Invalid Date (`none`).  The model's domain is restricted to
years ≥ 1970, the era a dashboard date filter draws from. -/
def parseDate (s : String) : Option Nat :=
  match splitDash s.toList with
  | [ys, ms, ds] =>
    if ys.length = 4 && ms.length = 2 && ds.length = 2
        && allDigits ys && allDigits ms && allDigits ds then
      let y := digitsVal ys
      let m := digitsVal ms
      let d := digitsVal ds
      if 1970 ≤ y && 1 ≤ m && m ≤ 12 && 1 ≤ d && d ≤ daysInMonth y m then
        some (daysFromCivil y m d * msPerDay)
      else none
    else none
  | _ => none

/-- `setHours(0,0,0,0)`: floor a timestamp to the start of its calendar day
(server reference timezone taken as UTC). -/
def startOfDay (t : Nat) : Nat := t / msPerDay * msPerDay

/-- The start bound the endpoint builds:
`const start = date ? new Date(date) : new Date(); start.setHours(0,0,0,0)`.
`rawDate` is the raw query-string value (`""` both for an absent and an
empty parameter, which are equally falsy); `now` is the current time.
`none` is an Invalid Date start. -/
def effStart (rawDate : String) (now : Nat) : Option Nat :=
  if rawDate = "" then some (startOfDay now)
  else (parseDate rawDate).map startOfDay

/-- The `createdAt: { $gte: start, $lte: end }` clause with
`end = start + 23:59:59.999`.  The `none` (Invalid Date) branch is never
consulted through `dashboardStats` — the store's date cast rejects such
a filter before any record is compared — and is fixed to match nothing
only to keep the function total. -/
def inInterval (start : Option Nat) (t : Nat) : Bool :=
  match start with
  | some s => decide (s ≤ t) && decide (t ≤ s + (msPerDay - 1))
  | none => false

/-- The complete match filter of the endpoint: the day interval plus
`if (recruiterId) filter.createdBy = recruiterId` (an empty raw value is
falsy, so the clause is omitted). -/
def matchesFilter (start : Option Nat) (rawRecruiterId : String) (r : Record) : Bool :=
  inInterval start r.createdAt && (rawRecruiterId = "" || r.createdBy = rawRecruiterId)

/-- One step of `$group: { _id: key, calls: { $sum: 1 } }`: increment the
key's group if present, otherwise append a fresh group of size one. -/
def bump (k : String) : List (String × Nat) → List (String × Nat)
  | [] => [(k, 1)]
  | (k2, c) :: t => if k2 = k then (k2, c + 1) :: t else (k2, c) :: bump k t

/-- `$group` by `key` with `$sum: 1`, groups listed in first-encountered
order of their key. -/
def groupCounts (key : Record → String) (rs : List Record) : List (String × Nat) :=
  rs.foldl (fun acc r => bump (key r) acc) []

/-- One document of the `recruiterCalls` aggregate after
`$group` + `$lookup` + `$unwind { preserveNullAndEmptyArrays: true }`:
the group key (`_id`), its count, and the joined user when one exists. -/
structure RecruiterCallEntry where
  id : String
  calls : Nat
  recruiter : Option User
deriving Repr, DecidableEq

/-- `$lookup` from the group key into `users` on `_id`, then `$unwind` with
`preserveNullAndEmptyArrays: true`: a key with no matching user keeps its
document (with the `recruiter` field absent); each matching user yields one
document. -/
def recruiterCallsOf (users : List User) (groups : List (String × Nat)) :
    List RecruiterCallEntry :=
  groups.flatMap (fun g =>
    let us := users.filter (fun u => u.id = g.1)
    if us.isEmpty then [⟨g.1, g.2, none⟩]
    else us.map (fun u => ⟨g.1, g.2, some u⟩))

/-- One document of the `clientCalls` aggregate: the client name (`_id`)
and its count. -/
structure ClientCallEntry where
  id : String
  calls : Nat
deriving Repr, DecidableEq

/-- Stable descending insertion for `$sort: { calls: -1 }`: the inserted
document (which precedes the already-inserted ones in group order) goes
before the first document whose `calls` does not exceed its own, hence
before every tie coming later in group order. -/
def insertDesc (x : ClientCallEntry) : List ClientCallEntry → List ClientCallEntry
  | [] => [x]
  | y :: ys => if y.calls ≤ x.calls then x :: y :: ys else y :: insertDesc x ys

/-- `$sort: { calls: -1 }` as a stable descending sort: each document of
the group stage is inserted in turn, later documents never overtaking
earlier ties. -/
def sortDesc : List ClientCallEntry → List ClientCallEntry
  | [] => []
  | x :: xs => insertDesc x (sortDesc xs)

/-- The JSON success body `{ totalCalls, totalSelected, recruiterCalls,
clientCalls }`. -/
structure AggregateResult where
  totalCalls : Nat
  totalSelected : Nat
  recruiterCalls : List RecruiterCallEntry
  clientCalls : List ClientCallEntry
deriving Repr, DecidableEq

/-- State of the `Candidate` model and its collection: `unloaded` when the
model reference is `null` (both `safeRequire` calls failed), `avail rs`
when queries succeed against records `rs`, `down` when queries throw. -/
inductive Store where
  | unloaded
  | avail (rs : List Record)
  | down
deriving Repr, DecidableEq

/-- The aggregation the endpoint performs when `Candidate` is non-null and
all queries succeed. -/
def computeAggregates (rs : List Record) (users : List User) (now : Nat)
    (rawRecruiterId rawDate : String) : AggregateResult :=
  let start := effStart rawDate now
  let pred := matchesFilter start rawRecruiterId
  let matched := rs.filter pred
  { totalCalls := rs.countP pred
    totalSelected := rs.countP (fun r => pred r && r.hrStatus = "Select")
    recruiterCalls := recruiterCallsOf users (groupCounts (fun r => r.createdBy) matched)
    clientCalls :=
      sortDesc ((groupCounts (fun r => r.client) matched).map (fun g => ⟨g.1, g.2⟩)) }

/-- Outcome of the HTTP request: `res.json(body)` on success, or the
`res.status(500).json({ error: 'Server error' })` branch of the catch. -/
inductive ApiResponse where
  | ok (body : AggregateResult)
  | serverError (msg : String)
deriving Repr, DecidableEq

/-- `GET /api/dashboard-stats`: a null `Candidate` model short-circuits
every query to its fallback (zeros and empty lists, no query runs, so
even an invalid date cannot throw); a throwing store is caught and
answered with the 500 error body; when the date parameter is non-empty
and unparseable, the filter's bounds are an Invalid Date, the model's
date cast raises a `CastError`, and the catch likewise answers the 500
error body; otherwise the aggregates are computed and returned. -/
def dashboardStats (store : Store) (users : List User) (now : Nat)
    (rawRecruiterId rawDate : String) : ApiResponse :=
  match store with
  | .unloaded => .ok ⟨0, 0, [], []⟩
  | .down => .serverError "Server error"
  | .avail rs =>
    match effStart rawDate now with
    | some _ => .ok (computeAggregates rs users now rawRecruiterId rawDate)
    | none => .serverError "Server error"

/-- The filter payload of a `requestStats` event; `none` fields model
absent properties (and a null payload is `⟨none, none⟩`, matching the
`filters || {}` guard). -/
structure StatsRequest where
  recruiterId : Option String
  date : Option String
deriving Repr, DecidableEq

/-- What a `statsUpdate` emission carries: the endpoint's parsed JSON
body, success shape or error shape. -/
inductive SocketPayload where
  | result (r : AggregateResult)
  | errorBody (msg : String)
deriving Repr, DecidableEq

/-- One `socket.emit(event, payload)` call, tagged with the id of the
socket it goes to. -/
structure Emission where
  target : String
  event : String
  payload : SocketPayload
deriving Repr, DecidableEq

/-- Fate of the loopback `fetch` + `res.json()` pair: `delivered` when both
promises resolve, `failed` when either rejects (network error, bad JSON). -/
inductive Transport where
  | delivered
  | failed (msg : String)
deriving Repr, DecidableEq

/-- Translate the endpoint response into the parsed body the socket
handler forwards. -/
def payloadOfResponse : ApiResponse → SocketPayload
  | .ok body => .result body
  | .serverError msg => .errorBody msg

/-- The raw query-string value the socket handler builds for an optional
payload field: `encodeURIComponent(v || '')`, decoded back by Express. -/
def rawParam (v : Option String) : String := v.getD ""

/-- The `socket.on('requestStats', ...)` handler: on a resolved transport
it emits the endpoint's body as `statsUpdate` to the requesting socket
only; a rejected transport lands in the catch block, which only logs —
no emission, and the connection is left open. -/
def handleRequestStats (store : Store) (users : List User) (now : Nat)
    (socketId : String) (filters : StatsRequest) (t : Transport) : List Emission :=
  match t with
  | .failed _ => []
  | .delivered =>
    [⟨socketId, "statsUpdate",
      payloadOfResponse
        (dashboardStats store users now (rawParam filters.recruiterId)
          (rawParam filters.date))⟩]

/-- Per-connection live-session state.  `connectionId` is the socket id.
`lastFilter` is the field the specification's data model ascribes to a
LiveSession; it is carried here so that claims about it can be stated —
the source handler itself stores nothing per connection. -/
structure LiveSession where
  connectionId : String
  lastFilter : Option StatsRequest
deriving Repr, DecidableEq

/-- Effect of one `requestStats` event on the session's state: the source
handler (`src/app.js`, `socket.on('requestStats', ...)`) reads the payload
into locals and never assigns any per-connection state, so the session is
returned unchanged. -/
def sessionAfterRequestStats (s : LiveSession) (filters : StatsRequest) : LiveSession :=
  let _ := filters
  s

/-! ### Specification-side definitions used to compare the code against -/

/-- The normalization of a raw recruiter query value into the Filter data
model: the empty string is absent. -/
def normRecruiter (raw : String) : Option String :=
  if raw = "" then none else some raw

/-- The match predicate as the specification words it: `createdAt` in the
closed interval of the day starting at `dayStart`, and, whenever a
recruiter id is present, `createdBy` equal to it. -/
def specMatch (dayStart : Nat) (recruiterId : Option String) (r : Record) : Bool :=
  decide (dayStart ≤ r.createdAt) && decide (r.createdAt ≤ dayStart + (msPerDay - 1)) &&
    (match recruiterId with
     | none => true
     | some rid => decide (r.createdBy = rid))

/-- The invariant `totalSelected ≤ totalCalls`, lifted over the HTTP
response (vacuous on an error response). -/
def selectedWithinTotal : ApiResponse → Prop
  | .ok b => b.totalSelected ≤ b.totalCalls
  | .serverError _ => True

/-- The set of outputs MongoDB may return for the `clientCalls` pipeline
(`$group: { _id: client, calls: { $sum: 1 } }` then `$sort: { calls: -1 }`)
over the matching records: one document per distinct client with its
count — a permutation of the group multiset, since `$group` emits its
documents in unspecified order — arranged with non-increasing `calls`,
the relative order of equal counts being unspecified by `$sort`. -/
def clientCallsAdmissible (matched : List Record)
    (out : List ClientCallEntry) : Prop :=
  List.Perm out
      ((groupCounts (fun r => r.client) matched).map
        (fun g => ClientCallEntry.mk g.1 g.2))
    ∧ List.Chain' (fun a b => b.calls ≤ a.calls) out

/-! ### Helper lemmas -/

theorem matchesFilter_some_eq (s : Nat) (rawR : String) (r : Record) :
    matchesFilter (some s) rawR r = specMatch s (normRecruiter rawR) r := by
  by_cases h : rawR = "" <;>
    simp [matchesFilter, inInterval, specMatch, normRecruiter, h, Bool.and_assoc]

theorem perm_insertDesc (x : ClientCallEntry) (l : List ClientCallEntry) :
    List.Perm (insertDesc x l) (x :: l) := by
  induction l with
  | nil => exact List.Perm.refl _
  | cons y ys ih =>
    by_cases hle : y.calls ≤ x.calls
    · simp [insertDesc, hle]
    · simp only [insertDesc, if_neg hle]
      exact (List.Perm.cons y ih).trans (List.Perm.swap x y ys)

theorem perm_sortDesc (l : List ClientCallEntry) :
    List.Perm (sortDesc l) l := by
  induction l with
  | nil => exact List.Perm.refl _
  | cons x xs ih =>
    exact (perm_insertDesc x (sortDesc xs)).trans (List.Perm.cons x ih)

theorem chain_insertDesc (x : ClientCallEntry) (l : List ClientCallEntry)
    (h : List.Chain' (fun a b => b.calls ≤ a.calls) l) :
    List.Chain' (fun a b => b.calls ≤ a.calls) (insertDesc x l) := by
  induction l with
  | nil => simp [insertDesc]
  | cons y ys ih =>
    by_cases hle : y.calls ≤ x.calls
    · simp only [insertDesc, if_pos hle]
      exact List.chain'_cons.mpr ⟨hle, h⟩
    · have hxy : x.calls ≤ y.calls := Nat.le_of_lt (Nat.lt_of_not_le hle)
      simp only [insertDesc, if_neg hle]
      refine List.chain'_cons'.mpr ⟨?_, ih h.tail⟩
      intro z hz
      cases ys with
      | nil =>
        simp [insertDesc] at hz
        subst hz
        exact hxy
      | cons w ws =>
        by_cases hw : w.calls ≤ x.calls
        · simp [insertDesc, hw] at hz
          subst hz
          exact hxy
        · simp [insertDesc, hw] at hz
          subst hz
          exact (List.chain'_cons.mp h).1

theorem chain_sortDesc (l : List ClientCallEntry) :
    List.Chain' (fun a b => b.calls ≤ a.calls) (sortDesc l) := by
  induction l with
  | nil => simp [sortDesc]
  | cons x xs ih => exact chain_insertDesc x _ ih

/-- Count held for key `k` in a running group accumulator (zero when the
key has no group yet). -/
def cnt (k : String) : List (String × Nat) → Nat
  | [] => 0
  | (k2, c) :: t => if k2 = k then c else cnt k t

theorem cnt_bump (k k2 : String) (acc : List (String × Nat)) :
    cnt k (bump k2 acc) = if k2 = k then cnt k acc + 1 else cnt k acc := by
  induction acc with
  | nil => by_cases h : k2 = k <;> simp [bump, cnt, h]
  | cons p t ih =>
    obtain ⟨k3, c⟩ := p
    by_cases h32 : k3 = k2
    · subst h32
      by_cases h3k : k3 = k <;> simp [bump, cnt, h3k]
    · by_cases h3k : k3 = k
      · have h2k : ¬ (k2 = k) := fun hk2e => h32 (h3k.trans hk2e.symm)
        simp only [bump, if_neg h32, cnt, if_pos h3k, if_neg h2k]
      · simp only [bump, if_neg h32, cnt, if_neg h3k, ih]

theorem cnt_foldl (key : Record → String) (k : String) :
    ∀ (l : List Record) (acc : List (String × Nat)),
      cnt k (l.foldl (fun a r => bump (key r) a) acc)
        = cnt k acc + l.countP (fun r => key r = k) := by
  intro l
  induction l with
  | nil => intro acc; simp
  | cons r t ih =>
    intro acc
    simp only [List.foldl_cons, ih, cnt_bump, List.countP_cons]
    by_cases h : key r = k <;> (simp [h]; try omega)

theorem cnt_groupCounts (key : Record → String) (k : String) (l : List Record) :
    cnt k (groupCounts key l) = l.countP (fun r => key r = k) := by
  simpa [groupCounts, cnt] using cnt_foldl key k l []

theorem keys_bump (k2 : String) (acc : List (String × Nat)) :
    (bump k2 acc).map Prod.fst
      = if k2 ∈ acc.map Prod.fst then acc.map Prod.fst
        else acc.map Prod.fst ++ [k2] := by
  induction acc with
  | nil => simp [bump]
  | cons p t ih =>
    obtain ⟨k3, c⟩ := p
    by_cases h : k3 = k2
    · simp [bump, h]
    · have hne : ¬ (k2 = k3) := fun hk => h hk.symm
      by_cases hm : k2 ∈ t.map Prod.fst <;>
        simp [bump, h, ih, hm, hne]

theorem keys_nodup_foldl (key : Record → String) :
    ∀ (l : List Record) (acc : List (String × Nat)),
      (acc.map Prod.fst).Nodup →
      ((l.foldl (fun a r => bump (key r) a) acc).map Prod.fst).Nodup := by
  intro l
  induction l with
  | nil => intro acc h; simpa using h
  | cons r t ih =>
    intro acc h
    refine ih _ ?_
    rw [keys_bump]
    by_cases hm : key r ∈ acc.map Prod.fst
    · simpa [hm] using h
    · simp only [hm, if_false]
      exact ((List.perm_append_singleton _ _).nodup_iff).mpr
        (List.nodup_cons.mpr ⟨hm, h⟩)

theorem keys_nodup_groupCounts (key : Record → String) (l : List Record) :
    ((groupCounts key l).map Prod.fst).Nodup := by
  simpa [groupCounts] using keys_nodup_foldl key l [] (by simp)

theorem mem_cnt (k : String) (c : Nat) (acc : List (String × Nat))
    (hm : (k, c) ∈ acc) (hd : (acc.map Prod.fst).Nodup) : cnt k acc = c := by
  induction acc with
  | nil => simp at hm
  | cons p t ih =>
    obtain ⟨k3, c3⟩ := p
    rcases List.mem_cons.mp hm with heq | ht
    · obtain ⟨rfl, rfl⟩ : k3 = k ∧ c3 = c := by
        have h1 := congrArg Prod.fst heq
        have h2 := congrArg Prod.snd heq
        exact ⟨h1.symm, h2.symm⟩
      simp [cnt]
    · have hk : k ∈ t.map Prod.fst := List.mem_map.mpr ⟨(k, c), ht, rfl⟩
      have h3 := (List.nodup_cons.mp hd).1
      have h3k : ¬ (k3 = k) := fun hkk => h3 (hkk ▸ hk)
      simp only [cnt, if_neg h3k]
      exact ih ht (List.nodup_cons.mp hd).2

theorem filter_id_eq (users : List User) (hu : (users.map (fun u => u.id)).Nodup)
    (k : String) :
    users.filter (fun u => u.id = k) = []
    ∨ ∃ u : User, users.filter (fun u => u.id = k) = [u] ∧ u.id = k := by
  induction users with
  | nil => exact Or.inl rfl
  | cons v vs ih =>
    have h1 := (List.nodup_cons.mp hu).1
    have h2 := (List.nodup_cons.mp hu).2
    by_cases hv : v.id = k
    · right
      refine ⟨v, ?_, hv⟩
      have hnil : vs.filter (fun u => u.id = k) = [] := by
        refine List.filter_eq_nil_iff.mpr ?_
        intro u hu2 hPu
        have huk : u.id = k := by simpa using hPu
        exact h1 (List.mem_map.mpr ⟨u, hu2, huk.trans hv.symm⟩)
      simp [List.filter_cons, hv, hnil]
    · rcases ih h2 with h | ⟨u, hfil, hk⟩
      · left; simp [List.filter_cons, hv, h]
      · right; exact ⟨u, by simp [List.filter_cons, hv, hfil], hk⟩

theorem recruiterCallsOf_proj (users : List User)
    (hu : (users.map (fun u => u.id)).Nodup) (groups : List (String × Nat)) :
    (recruiterCallsOf users groups).map (fun e => (e.id, e.calls)) = groups := by
  induction groups with
  | nil => rfl
  | cons g gs ih =>
    simp only [recruiterCallsOf, List.flatMap_cons, List.map_append] at ih ⊢
    rcases filter_id_eq users hu g.1 with h | ⟨u, hfil, hk⟩
    · rw [h]
      simpa using ih
    · rw [hfil]
      simpa using ih

theorem mem_recruiterCallsOf (users : List User) (groups : List (String × Nat))
    (e : RecruiterCallEntry) (he : e ∈ recruiterCallsOf users groups) :
    (e.id, e.calls) ∈ groups ∧ ∀ u, e.recruiter = some u → u.id = e.id := by
  simp only [recruiterCallsOf, List.mem_flatMap] at he
  obtain ⟨g, hg, he2⟩ := he
  by_cases hemp : (users.filter (fun u => u.id = g.1)).isEmpty
  · rw [if_pos hemp] at he2
    have h2 : e = ⟨g.1, g.2, none⟩ := List.mem_singleton.mp he2
    subst h2
    refine ⟨by simpa using hg, ?_⟩
    intro u h
    simp at h
  · rw [if_neg hemp] at he2
    obtain ⟨u, hu2, he3⟩ := List.mem_map.mp he2
    subst he3
    refine ⟨by simpa using hg, ?_⟩
    intro u2 h2
    have h2u : u2 = u := by simpa using h2.symm
    subst h2u
    simpa using (List.mem_filter.mp hu2).2

/-! ### Claim theorems -/

/-- C1: for every record set and every filter whose effective day resolves
(a given calendar date, or — as the final conjunct shows — the current day
when the date is absent), `totalCalls` counts exactly the records whose
`createdAt` lies in the closed interval `[00:00:00.000, 23:59:59.999]` of
that day and whose `createdBy` equals the recruiter id whenever one is
present, and `totalSelected` counts those that additionally have
`hrStatus = "Select"`. -/
theorem computeAggregates_counts_spec (rs : List Record) (users : List User)
    (now : Nat) (rawR rawDate : String) (s : Nat)
    (h : effStart rawDate now = some s) :
    effStart "" now = some (startOfDay now)
    ∧ (computeAggregates rs users now rawR rawDate).totalCalls
        = rs.countP (fun r => specMatch s (normRecruiter rawR) r)
    ∧ (computeAggregates rs users now rawR rawDate).totalSelected
        = rs.countP (fun r =>
            specMatch s (normRecruiter rawR) r && r.hrStatus = "Select") := by
  refine ⟨rfl, ?_, ?_⟩ <;>
  · simp only [computeAggregates, h]
    exact List.countP_congr (fun r _ => by rw [matchesFilter_some_eq])

/-- Witness for C1 at a concrete record set, date and recruiter filter. -/
theorem computeAggregates_counts_spec_witness :
    effStart "2024-01-15" 999 = some 1705276800000
    ∧ (effStart "" 999 = some (startOfDay 999)
      ∧ (computeAggregates
            [⟨1705312000000, "R1", "Acme", "Select"⟩,
             ⟨1705312000001, "R2", "Beta", "Reject"⟩] [] 999 "R1"
            "2024-01-15").totalCalls
          = List.countP (fun r => specMatch 1705276800000 (normRecruiter "R1") r)
              [⟨1705312000000, "R1", "Acme", "Select"⟩,
               ⟨1705312000001, "R2", "Beta", "Reject"⟩]
      ∧ (computeAggregates
            [⟨1705312000000, "R1", "Acme", "Select"⟩,
             ⟨1705312000001, "R2", "Beta", "Reject"⟩] [] 999 "R1"
            "2024-01-15").totalSelected
          = List.countP (fun r =>
                specMatch 1705276800000 (normRecruiter "R1") r
                  && r.hrStatus = "Select")
              [⟨1705312000000, "R1", "Acme", "Select"⟩,
               ⟨1705312000001, "R2", "Beta", "Reject"⟩]) :=
  ⟨by decide, computeAggregates_counts_spec _ _ _ _ _ _ (by decide)⟩

/-- JavaScript's ISO parser (and this model of it) rejects
calendar-invalid component combinations and respects leap years. -/
theorem parseDate_calendar_validation :
    parseDate "2024-02-31" = none
    ∧ parseDate "2023-02-29" = none
    ∧ parseDate "2024-04-31" = none
    ∧ parseDate "2024-02-29" = some 1709164800000 :=
  ⟨by decide, by decide, by decide, by decide⟩

/-- C2 counterexample: with a record created inside the current calendar
day, the unparseable date string `"garbage"` does NOT fall back to the
current day: the Invalid Date in the query filter makes the store's date
cast throw, so the endpoint answers the 500 error body, while the absent
date (empty string) returns the current-day aggregate.  The claim that an
invalid date is treated as absent and still yields a valid
AggregateResult is therefore false of the code. -/
theorem invalid_date_counterexample :
    parseDate "garbage" = none
    ∧ dashboardStats (.avail [⟨1705312000000, "R1", "Acme", "Select"⟩]) []
        1705312345678 "" "garbage" = .serverError "Server error"
    ∧ dashboardStats (.avail [⟨1705312000000, "R1", "Acme", "Select"⟩]) []
        1705312345678 "" "" = .ok ⟨1, 1, [⟨"R1", 1, none⟩], [⟨"Acme", 1⟩]⟩ :=
  ⟨by decide, by decide, by decide⟩

/-- C2 (amended): a non-empty date string that cannot be parsed is not
treated as absent: it puts an Invalid Date into the query filter, the
record store's date cast rejects it, and the endpoint answers with the
500 error body instead of an aggregate; the live channel still emits a
`statsUpdate` for the request (never an unhandled failure), but it
carries the error payload, not a current-day aggregate.  Only an
absent/empty date falls back to the current calendar day. -/
theorem invalid_date_is_server_error (rs : List Record) (users : List User)
    (now : Nat) (rawR rawDate : String) (hne : rawDate ≠ "")
    (hbad : parseDate rawDate = none) :
    dashboardStats (.avail rs) users now rawR rawDate
        = .serverError "Server error"
    ∧ ∀ (sid : String) (rid : Option String),
        handleRequestStats (.avail rs) users now sid ⟨rid, some rawDate⟩
            .delivered
          = [⟨sid, "statsUpdate", .errorBody "Server error"⟩] := by
  have hes : effStart rawDate now = none := by simp [effStart, hne, hbad]
  refine ⟨by simp [dashboardStats, hes], ?_⟩
  intro sid rid
  simp [handleRequestStats, dashboardStats, hes, payloadOfResponse, rawParam]

/-- Witness for C2's amended theorem at the concrete date string
`"garbage"`. -/
theorem invalid_date_is_server_error_witness :
    ("garbage" ≠ "" ∧ parseDate "garbage" = none)
    ∧ (dashboardStats (.avail [⟨1705312000000, "R1", "Acme", "Select"⟩]) []
          1705312345678 "" "garbage" = .serverError "Server error"
      ∧ ∀ (sid : String) (rid : Option String),
          handleRequestStats (.avail [⟨1705312000000, "R1", "Acme", "Select"⟩])
              [] 1705312345678 sid ⟨rid, some "garbage"⟩ .delivered
            = [⟨sid, "statsUpdate", .errorBody "Server error"⟩]) :=
  ⟨⟨by decide, by decide⟩,
    invalid_date_is_server_error
      [⟨1705312000000, "R1", "Acme", "Select"⟩] [] 1705312345678 "" "garbage"
      (by decide) (by decide)⟩

/-- C3 counterexample: a `requestStats` whose loopback transport fails
(the `fetch`/`res.json()` promise rejects) produces no emission at all:
the handler's catch block only logs, so no error-flagged `statsUpdate`
reaches the requesting connection — the request is silently dropped. -/
theorem requestStats_transport_failure_drops :
    handleRequestStats (.avail [⟨1705312000000, "R1", "Acme", "Select"⟩]) []
      1705312345678 "s1" ⟨none, none⟩ (.failed "network error") = [] := rfl

/-- C3 (amended): a failure inside the stats endpoint (record store down)
reaches the endpoint's catch and its 500 error body IS forwarded to the
requesting connection as an error-flagged `statsUpdate`, and the
connection is not closed; but a transport-level failure of the loopback
fetch is only logged — no `statsUpdate` is emitted for it. -/
theorem requestStats_failure_semantics (store : Store) (users : List User)
    (now : Nat) (sid : String) (f : StatsRequest) (msg : String) :
    handleRequestStats .down users now sid f .delivered
      = [⟨sid, "statsUpdate", .errorBody "Server error"⟩]
    ∧ handleRequestStats store users now sid f (.failed msg) = [] :=
  ⟨rfl, rfl⟩

/-- C4: for every store state and every filter, the response satisfies
`totalSelected ≤ totalCalls` (trivially on the error response; by
predicate inclusion on a success body). -/
theorem dashboardStats_selected_le_total (store : Store) (users : List User)
    (now : Nat) (rawR rawDate : String) :
    selectedWithinTotal (dashboardStats store users now rawR rawDate) := by
  cases store with
  | unloaded => simp [dashboardStats, selectedWithinTotal]
  | down => simp [dashboardStats, selectedWithinTotal]
  | avail rs =>
    cases hes : effStart rawDate now with
    | none => simp [dashboardStats, hes, selectedWithinTotal]
    | some s =>
      simp only [dashboardStats, hes, selectedWithinTotal, computeAggregates]
      exact List.countP_mono_left (fun r _ h => (Bool.and_eq_true_iff.mp h).1)

/-- C5 counterexample: for two records whose clients `"a"` then `"b"` tie
at one call each, the output listing `"b"` before `"a"` is admissible for
the code's `$group` + `$sort { calls: -1 }` pipeline (right multiset,
non-increasing counts), yet it reverses the first-encountered order in
which the client keys appear in the filtered record set — so stable
first-encountered tie-breaking is not a property the program
guarantees. -/
theorem clientCalls_tie_order_counterexample :
    clientCallsAdmissible
        (List.filter (matchesFilter (effStart "" 1705312345678) "")
          [⟨1705312000000, "R1", "a", "Select"⟩,
           ⟨1705312000001, "R1", "b", "Select"⟩])
        [⟨"b", 1⟩, ⟨"a", 1⟩]
    ∧ ([⟨"b", 1⟩, ⟨"a", 1⟩] : List ClientCallEntry)
        ≠ (groupCounts (fun r => r.client)
            (List.filter (matchesFilter (effStart "" 1705312345678) "")
              [⟨1705312000000, "R1", "a", "Select"⟩,
               ⟨1705312000001, "R1", "b", "Select"⟩])).map
            (fun g => ClientCallEntry.mk g.1 g.2) := by
  refine ⟨⟨?_, ?_⟩, ?_⟩
  · have hgroups : (groupCounts (fun r => r.client)
        (List.filter (matchesFilter (effStart "" 1705312345678) "")
          [⟨1705312000000, "R1", "a", "Select"⟩,
           ⟨1705312000001, "R1", "b", "Select"⟩])).map
        (fun g => ClientCallEntry.mk g.1 g.2)
        = [⟨"a", 1⟩, ⟨"b", 1⟩] := by decide
    rw [hgroups]
    exact List.Perm.swap _ _ _
  · exact List.chain'_cons.mpr ⟨by decide, List.chain'_singleton _⟩
  · decide

/-- C5 (amended): every output the record store may return for
`clientCalls` — any admissible outcome of `$group` by client followed by
`$sort: { calls: -1 }` — is sorted descending by `calls` (every adjacent
pair `a, b` satisfies `b.calls ≤ a.calls`), lists each distinct client of
the filtered record set exactly once with that group's record count; the
relative order of entries with equal `calls` is unspecified.  The
deterministic embedding's `clientCalls` is one such admissible
outcome. -/
theorem clientCalls_admissible_spec (rs : List Record) (users : List User)
    (now : Nat) (rawR rawDate : String) :
    clientCallsAdmissible (rs.filter (matchesFilter (effStart rawDate now) rawR))
      (computeAggregates rs users now rawR rawDate).clientCalls
    ∧ ∀ out : List ClientCallEntry,
        clientCallsAdmissible
            (rs.filter (matchesFilter (effStart rawDate now) rawR)) out →
          List.Chain' (fun a b => b.calls ≤ a.calls) out
          ∧ (out.map (fun e => e.id)).Nodup
          ∧ ∀ e ∈ out,
              e.calls = (rs.filter
                  (matchesFilter (effStart rawDate now) rawR)).countP
                (fun r => r.client = e.id) := by
  constructor
  · constructor
    · simp only [computeAggregates]
      exact perm_sortDesc _
    · simp only [computeAggregates]
      exact chain_sortDesc _
  · intro out hout
    obtain ⟨hperm, hchain⟩ := hout
    refine ⟨hchain, ?_, ?_⟩
    · have hkeys := keys_nodup_groupCounts (fun r => r.client)
        (rs.filter (matchesFilter (effStart rawDate now) rawR))
      have hperm2 := hperm.map (fun e => e.id)
      refine hperm2.nodup_iff.mpr ?_
      simpa [List.map_map, Function.comp] using hkeys
    · intro e he
      have heX := hperm.mem_iff.mp he
      obtain ⟨g, hg, hge⟩ := List.mem_map.mp heX
      subst hge
      have hkeys := keys_nodup_groupCounts (fun r => r.client)
        (rs.filter (matchesFilter (effStart rawDate now) rawR))
      have hgm : (g.1, g.2) ∈ groupCounts (fun r => r.client)
          (rs.filter (matchesFilter (effStart rawDate now) rawR)) := by
        simpa using hg
      have hcnt := mem_cnt g.1 g.2 _ hgm hkeys
      rw [show (ClientCallEntry.mk g.1 g.2).calls = g.2 from rfl, ← hcnt,
        cnt_groupCounts]

/-- Witness for C5's amended theorem: the admissibility hypothesis of the
inner implication discharged at the concrete reversed-tie outcome. -/
theorem clientCalls_admissible_spec_witness :
    clientCallsAdmissible
        (List.filter (matchesFilter (effStart "" 1705312345678) "")
          [⟨1705312000000, "R1", "a", "Select"⟩,
           ⟨1705312000001, "R1", "b", "Select"⟩])
        [⟨"b", 1⟩, ⟨"a", 1⟩]
    ∧ (List.Chain' (fun a b => b.calls ≤ a.calls)
          ([⟨"b", 1⟩, ⟨"a", 1⟩] : List ClientCallEntry)
      ∧ (([⟨"b", 1⟩, ⟨"a", 1⟩] : List ClientCallEntry).map
          (fun e => e.id)).Nodup
      ∧ ∀ e ∈ ([⟨"b", 1⟩, ⟨"a", 1⟩] : List ClientCallEntry),
          e.calls = (List.filter (matchesFilter (effStart "" 1705312345678) "")
              [⟨1705312000000, "R1", "a", "Select"⟩,
               ⟨1705312000001, "R1", "b", "Select"⟩]).countP
            (fun r => r.client = e.id)) :=
  have hadm : clientCallsAdmissible
      (List.filter (matchesFilter (effStart "" 1705312345678) "")
        [⟨1705312000000, "R1", "a", "Select"⟩,
         ⟨1705312000001, "R1", "b", "Select"⟩])
      [⟨"b", 1⟩, ⟨"a", 1⟩] := by
    refine ⟨?_, List.chain'_cons.mpr ⟨by decide, List.chain'_singleton _⟩⟩
    have hgroups : (groupCounts (fun r => r.client)
        (List.filter (matchesFilter (effStart "" 1705312345678) "")
          [⟨1705312000000, "R1", "a", "Select"⟩,
           ⟨1705312000001, "R1", "b", "Select"⟩])).map
        (fun g => ClientCallEntry.mk g.1 g.2)
        = [⟨"a", 1⟩, ⟨"b", 1⟩] := by decide
    rw [hgroups]
    exact List.Perm.swap _ _ _
  ⟨hadm,
    (clientCalls_admissible_spec
        [⟨1705312000000, "R1", "a", "Select"⟩,
         ⟨1705312000001, "R1", "b", "Select"⟩]
        [] 1705312345678 "" "").2
      [⟨"b", 1⟩, ⟨"a", 1⟩] hadm⟩

/-- C6: `recruiterCalls` projects exactly onto the `createdBy` groups of
the matching records (one entry per distinct value, in first-encountered
order), its entry ids are distinct, each entry's `calls` is that group's
record count, and joined metadata — when present — belongs to the entry's
recruiter; a group with no resolvable user still appears (its projection
is still in the group list). -/
theorem recruiterCalls_complete (rs : List Record) (users : List User)
    (now : Nat) (rawR rawDate : String)
    (hu : (users.map (fun u => u.id)).Nodup) :
    (computeAggregates rs users now rawR rawDate).recruiterCalls.map
        (fun e => (e.id, e.calls))
      = groupCounts (fun r => r.createdBy)
          (rs.filter (matchesFilter (effStart rawDate now) rawR))
    ∧ ((computeAggregates rs users now rawR rawDate).recruiterCalls.map
        (fun e => e.id)).Nodup
    ∧ ∀ e ∈ (computeAggregates rs users now rawR rawDate).recruiterCalls,
        e.calls = (rs.filter (matchesFilter (effStart rawDate now) rawR)).countP
            (fun r => r.createdBy = e.id)
        ∧ ∀ u, e.recruiter = some u → u.id = e.id := by
  have hproj := recruiterCallsOf_proj users hu
    (groupCounts (fun r => r.createdBy)
      (rs.filter (matchesFilter (effStart rawDate now) rawR)))
  refine ⟨?_, ?_, ?_⟩
  · simpa only [computeAggregates] using hproj
  · have hkeys := keys_nodup_groupCounts (fun r => r.createdBy)
      (rs.filter (matchesFilter (effStart rawDate now) rawR))
    rw [← hproj] at hkeys
    simp only [computeAggregates]
    simpa [List.map_map, Function.comp] using hkeys
  · intro e he
    simp only [computeAggregates] at he
    obtain ⟨hg, hrec⟩ := mem_recruiterCallsOf users _ e he
    refine ⟨?_, hrec⟩
    have hkeys := keys_nodup_groupCounts (fun r => r.createdBy)
      (rs.filter (matchesFilter (effStart rawDate now) rawR))
    have hcnt := mem_cnt e.id e.calls _ hg hkeys
    rw [← hcnt, cnt_groupCounts]

/-- Witness for C6 at a concrete record set with one resolvable and one
unresolvable recruiter. -/
theorem recruiterCalls_complete_witness :
    ((([⟨"R1", "alice"⟩] : List User).map (fun u => u.id)).Nodup)
    ∧ ((computeAggregates
          [⟨1705312000000, "R1", "Acme", "Select"⟩,
           ⟨1705312000002, "R2", "Acme", "Select"⟩]
          [⟨"R1", "alice"⟩] 1705312345678 "" "").recruiterCalls.map
            (fun e => (e.id, e.calls))
        = groupCounts (fun r => r.createdBy)
            (List.filter
              (matchesFilter (effStart "" 1705312345678) "")
              [⟨1705312000000, "R1", "Acme", "Select"⟩,
               ⟨1705312000002, "R2", "Acme", "Select"⟩])
      ∧ ((computeAggregates
          [⟨1705312000000, "R1", "Acme", "Select"⟩,
           ⟨1705312000002, "R2", "Acme", "Select"⟩]
          [⟨"R1", "alice"⟩] 1705312345678 "" "").recruiterCalls.map
            (fun e => e.id)).Nodup
      ∧ ∀ e ∈ (computeAggregates
          [⟨1705312000000, "R1", "Acme", "Select"⟩,
           ⟨1705312000002, "R2", "Acme", "Select"⟩]
          [⟨"R1", "alice"⟩] 1705312345678 "" "").recruiterCalls,
          e.calls = (List.filter
              (matchesFilter (effStart "" 1705312345678) "")
              [⟨1705312000000, "R1", "Acme", "Select"⟩,
               ⟨1705312000002, "R2", "Acme", "Select"⟩]).countP
              (fun r => r.createdBy = e.id)
          ∧ ∀ u, e.recruiter = some u → u.id = e.id) :=
  ⟨by decide, recruiterCalls_complete _ _ _ _ _ (by decide)⟩

/-- C7 counterexample: after handling a `requestStats` event carrying a
filter, the session still has no stored filter — `lastFilter` does not
equal the event's payload. -/
theorem lastFilter_not_stored :
    (sessionAfterRequestStats ⟨"s1", none⟩ ⟨some "R1", none⟩).lastFilter
      ≠ some ⟨some "R1", none⟩ := by decide

/-- C7 (amended): the `requestStats` handler stores nothing per
connection: the session state (in particular any `lastFilter` field) is
left completely unchanged by handling an event; the filter payload is
used only to build the one-off loopback query. -/
theorem requestStats_session_unchanged (s : LiveSession) (f : StatsRequest) :
    sessionAfterRequestStats s f = s := rfl

/-- C8: every emission produced by handling a `requestStats` event targets
exactly the requesting connection, is a `statsUpdate`, and carries the
payload computed from that connection's own filter — so distinct
connections with distinct filters can never receive each other's
results. -/
theorem statsUpdate_only_to_requester (store : Store) (users : List User)
    (now : Nat) (sid : String) (f : StatsRequest) (t : Transport)
    (e : Emission) (he : e ∈ handleRequestStats store users now sid f t) :
    e.target = sid ∧ e.event = "statsUpdate"
    ∧ e.payload = payloadOfResponse
        (dashboardStats store users now (rawParam f.recruiterId)
          (rawParam f.date)) := by
  cases t with
  | failed msg => simp [handleRequestStats] at he
  | delivered =>
    simp only [handleRequestStats, List.mem_singleton] at he
    subst he
    exact ⟨rfl, rfl, rfl⟩

/-- Witness for C8 at a concrete connection and filter. -/
theorem statsUpdate_only_to_requester_witness :
    ((⟨"s1", "statsUpdate", .result ⟨0, 0, [], []⟩⟩ : Emission)
        ∈ handleRequestStats .unloaded [] 0 "s1" ⟨none, none⟩ .delivered)
    ∧ ((⟨"s1", "statsUpdate", .result ⟨0, 0, [], []⟩⟩ : Emission).target = "s1"
      ∧ (⟨"s1", "statsUpdate", .result ⟨0, 0, [], []⟩⟩ : Emission).event
          = "statsUpdate"
      ∧ (⟨"s1", "statsUpdate", .result ⟨0, 0, [], []⟩⟩ : Emission).payload
          = payloadOfResponse
              (dashboardStats .unloaded [] 0 (rawParam none) (rawParam none))) :=
  ⟨by decide,
    statsUpdate_only_to_requester .unloaded [] 0 "s1" ⟨none, none⟩ .delivered
      ⟨"s1", "statsUpdate", .result ⟨0, 0, [], []⟩⟩ (by decide)⟩

/-- C9: the live channel delegates to the very same endpoint the pull path
uses — a delivered `requestStats` emits exactly one `statsUpdate` to the
requester whose payload is the endpoint's body for the equivalent raw
query parameters (absent payload fields becoming empty strings, exactly
as the handler's `encodeURIComponent(v || '')` builds them), so both
paths share one normalization and aggregation. -/
theorem live_channel_matches_endpoint (store : Store) (users : List User)
    (now : Nat) (sid : String) (f : StatsRequest) :
    handleRequestStats store users now sid f .delivered
      = [⟨sid, "statsUpdate",
          payloadOfResponse
            (dashboardStats store users now (rawParam f.recruiterId)
              (rawParam f.date))⟩] := rfl

/-- C10: when the `Candidate` model is null (unloaded at boot), every
request still succeeds with zero totals and empty sequences. -/
theorem dashboardStats_unloaded (users : List User) (now : Nat)
    (rawR rawDate : String) :
    dashboardStats .unloaded users now rawR rawDate = .ok ⟨0, 0, [], []⟩ := rfl

end Dashboard
